import Mathlib

/-!
Verification model of the motivai-agent repository.

Shallow embedding of the code in pages/api/motivate.ts, pages/api/stats.ts
and pages/index.tsx.  JavaScript strings are modelled by Lean strings, with
the JavaScript string operations (trim, split, charAt, toUpperCase, slice)
re-implemented structurally over the underlying character list.  The two
Next.js API handlers become pure functions from the request data and the
outcomes of their external effects (database connection, Gemini fetch,
insert) to the response they produce; the client page becomes an explicit
event-step system over its React state flags.
-/

namespace MotivAI

/-- JavaScript String.prototype.trim: drop whitespace from both ends of the
character list (space, tab, carriage return, newline). -/
def jsTrim (s : String) : String :=
  String.mk (((s.data.dropWhile Char.isWhitespace).reverse.dropWhile Char.isWhitespace).reverse)

/-- The JavaScript expression msg.charAt(0).toUpperCase() + msg.slice(1)
from pages/api/motivate.ts line 128. -/
def capitalizeFirst (s : String) : String :=
  match s.data with
  | [] => ""
  | c :: cs => String.mk (c.toUpper :: cs)

/-- JavaScript String.prototype.split(' ') on the character list: split at
every single space character, keeping empty fragments, so that the result is
always non-empty (split of the empty string is a list holding one empty
fragment, as in JavaScript). -/
def splitSpace : List Char → List (List Char)
  | [] => [[]]
  | c :: rest =>
    if c = ' ' then [] :: splitSpace rest
    else
      match splitSpace rest with
      | [] => [[c]]
      | h :: t => (c :: h) :: t

/-- The JavaScript expression s.split(' ')[0]: the first fragment of
splitting on the space character. -/
def jsSplitFirst (s : String) : String :=
  String.mk ((splitSpace s.data).headD [])

/-- The first whitespace-separated token of a string: skip leading
whitespace, then take the run of non-whitespace characters.  This is the
notion of first token used by the specification sentence about deriving the
first name by splitting on whitespace; it is compared against the code
function jsSplitFirst. -/
def firstWhitespaceToken (s : String) : String :=
  String.mk ((s.data.dropWhile Char.isWhitespace).takeWhile (fun c => ! c.isWhitespace))

/-- JavaScript falsiness of an optional string field of a request body:
an absent field and the empty string are the falsy cases. -/
def jsFalsy : Option String → Bool
  | none => true
  | some s => s == ""

/-! ### Model of the Gemini response payload (pages/api/motivate.ts) -/

/-- One element of candidates[0].content.parts; its text field may be
absent, in which case the JavaScript extraction assigns undefined. -/
structure GeminiPart where
  text : Option String
deriving DecidableEq

/-- The content value of a candidate; its parts field may be absent. -/
structure GeminiContent where
  parts : Option (List GeminiPart)
deriving DecidableEq

/-- One element of the candidates array; its content field may be absent. -/
structure GeminiCandidate where
  content : Option GeminiContent
deriving DecidableEq

/-- The parsed JSON payload of the Gemini call; the candidates field may be
absent. -/
structure GeminiResult where
  candidates : Option (List GeminiCandidate)
deriving DecidableEq

/-- The fixed fallback apology string of pages/api/motivate.ts line 114. -/
def fallbackMessage : String :=
  "I\x27m sorry, I couldn\x27t generate a motivational message right now."

/-- Lines 114-123 of pages/api/motivate.ts: aiMotivationalMessage starts as
the fallback and is overwritten with candidates[0].content.parts[0].text
exactly when the guard (candidates present and non-empty, content present,
parts present and non-empty) holds.  The guard does not inspect the text
field itself, so when the first part lacks a text field the variable is
assigned undefined, modelled by the result none; every later use of the
variable (length, trim) then throws. -/
def extractMessage (r : GeminiResult) : Option String :=
  match r.candidates with
  | some (c :: _) =>
    match c.content with
    | some content =>
      match content.parts with
      | some (p :: _) => p.text
      | _ => some fallbackMessage
    | none => some fallbackMessage
  | _ => some fallbackMessage

/-- Lines 125-131 of pages/api/motivate.ts: capitalize the first character
when the message is non-empty and the output language is en-US, then trim
whitespace from both ends unconditionally. -/
def postProcess (msg : String) (outputLanguage : Option String) : String :=
  jsTrim (if 0 < msg.length ∧ outputLanguage = some "en-US" then capitalizeFirst msg else msg)

/-- Outcome of the Gemini fetch as seen by the handler: a parsed payload
when the HTTP response is ok, a non-ok HTTP status (the handler throws), or
a network-level failure of fetch itself (the promise rejects). -/
inductive GeminiOutcome where
  | ok (r : GeminiResult)
  | httpError (status : Nat) (body : String)
  | networkFailure
deriving DecidableEq

/-- The observable result of one run of the motivate handler: the HTTP
status and message of the response, whether the Gemini fetch was issued,
and whether the interactions insert was attempted. -/
structure MotivateResult where
  status : Nat
  message : String
  geminiCalled : Bool
  insertAttempted : Bool
deriving DecidableEq

/-- The handler of pages/api/motivate.ts as a function of the request data
and of the outcomes of its awaited effects, in source order: the method
check (405), the prompt falsiness check (400), the MongoDB connection, the
API-key check, the Gemini fetch, the extraction and post-processing, the
awaited insert into the interactions collection, and finally the 200
response; every thrown error is caught by the catch block, which responds
500 with message Internal Server Error. -/
def motivateHandler (method : String) (prompt : Option String)
    (outputLanguage : Option String) (connectOk : Bool) (apiKeySet : Bool)
    (gemini : GeminiOutcome) (insertOk : Bool) : MotivateResult :=
  if method ≠ "POST" then ⟨405, "Method Not Allowed", false, false⟩
  else if jsFalsy prompt then ⟨400, "Prompt is required", false, false⟩
  else if connectOk = false then ⟨500, "Internal Server Error", false, false⟩
  else if apiKeySet = false then ⟨500, "Internal Server Error", false, false⟩
  else
    match gemini with
    | .httpError _ _ => ⟨500, "Internal Server Error", true, false⟩
    | .networkFailure => ⟨500, "Internal Server Error", true, false⟩
    | .ok r =>
      match extractMessage r with
      | none => ⟨500, "Internal Server Error", true, false⟩
      | some m =>
        if insertOk then ⟨200, postProcess m outputLanguage, true, true⟩
        else ⟨500, "Internal Server Error", true, true⟩

/-! ### Model of the stats handler (pages/api/stats.ts) -/

/-- One stored document of the interactions collection, with the fields
written by the insert of pages/api/motivate.ts lines 136-144. -/
structure Interaction where
  userId : String
  userName : Option String
  userPrompt : String
  aiResponse : String
  inputLanguage : Option String
  outputLanguage : Option String
deriving DecidableEq

/-- The handler of pages/api/stats.ts as a function of the request method,
the connection outcome and the stored interaction documents: a non-GET
method gets 405 with no body data; a connection failure is caught and gets
500; otherwise totalQueries is countDocuments (the number of stored
documents) and totalUsers is the length of distinct('userId') (the number
of distinct userId values), returned with status 200. -/
def statsHandler (method : String) (connectOk : Bool)
    (interactions : List Interaction) : Nat × Option (Nat × Nat) :=
  if method ≠ "GET" then (405, none)
  else if connectOk = false then (500, none)
  else (200, some (((interactions.map Interaction.userId).dedup).length, interactions.length))

/-! ### Helper lemmas -/

/-- A non-empty Lean model of a JavaScript string has positive length. -/
theorem length_pos_of_ne_empty {m : String} (h : m ≠ "") : 0 < m.length := by
  cases m with
  | mk data =>
    cases data with
    | nil => exact absurd rfl h
    | cons c cs => simp [String.length]

/-- Post-processing never changes the fallback apology string, whatever the
output language is. -/
theorem postProcess_fallback (lang : Option String) :
    postProcess fallbackMessage lang = fallbackMessage := by
  unfold postProcess
  by_cases h : 0 < fallbackMessage.length ∧ lang = some "en-US"
  · rw [if_pos h]; decide
  · rw [if_neg h]; decide

/-! ### Claims about the API handlers -/

/-- C10: a non-POST request to the motivate endpoint gets status 405 and
causes neither a Gemini call nor an insert; a POST request whose prompt is
absent or empty gets status 400 with message Prompt is required and causes
neither a Gemini call nor an insert. -/
theorem c10_confirmed :
    (∀ (method : String) (prompt outputLanguage : Option String)
       (connectOk apiKeySet : Bool) (gemini : GeminiOutcome) (insertOk : Bool),
       method ≠ "POST" →
       motivateHandler method prompt outputLanguage connectOk apiKeySet gemini insertOk =
         ⟨405, "Method Not Allowed", false, false⟩) ∧
    (∀ (prompt outputLanguage : Option String)
       (connectOk apiKeySet : Bool) (gemini : GeminiOutcome) (insertOk : Bool),
       jsFalsy prompt = true →
       motivateHandler "POST" prompt outputLanguage connectOk apiKeySet gemini insertOk =
         ⟨400, "Prompt is required", false, false⟩) := by
  constructor
  · intro method prompt outputLanguage connectOk apiKeySet gemini insertOk h
    unfold motivateHandler
    rw [if_pos h]
  · intro prompt outputLanguage connectOk apiKeySet gemini insertOk h
    unfold motivateHandler
    rw [if_neg (fun hc => hc rfl), if_pos h]

/-- C10 witness: the two branches evaluated at concrete requests. -/
theorem c10_witness :
    motivateHandler "GET" (some "hello") none true true .networkFailure true =
      ⟨405, "Method Not Allowed", false, false⟩ ∧
    motivateHandler "POST" (some "") none true true .networkFailure true =
      ⟨400, "Prompt is required", false, false⟩ :=
  ⟨c10_confirmed.1 "GET" (some "hello") none true true .networkFailure true (by decide),
   c10_confirmed.2 (some "") none true true .networkFailure true (by decide)⟩

/-- C9: a successful GET of the stats endpoint responds 200 with
totalQueries equal to the number of stored interaction documents and
totalUsers equal to the number of distinct userId values among them. -/
theorem c9_confirmed (db : List Interaction) :
    statsHandler "GET" true db =
      (200, some ((db.map Interaction.userId).toFinset.card, db.length)) := by
  have h : ((db.map Interaction.userId).toFinset.card) =
      ((db.map Interaction.userId).dedup).length := List.card_toFinset _
  unfold statsHandler
  rw [if_neg (fun hc => hc rfl), if_neg (by decide : ¬(true = false)), h]

/-- C6: for a successful en-US generation the handler capitalizes the first
character and then trims; in the concrete scenario the backend reply
"get up and try again." is returned as "Get up and try again.", and for any
non-en-US output language only the trim is applied. -/
theorem c6_confirmed :
    motivateHandler "POST" (some "I failed my interview") (some "en-US") true true
        (.ok ⟨some [⟨some ⟨some [⟨some "get up and try again."⟩]⟩⟩]⟩) true =
      ⟨200, "Get up and try again.", true, true⟩ ∧
    (∀ m : String, m ≠ "" → postProcess m (some "en-US") = jsTrim (capitalizeFirst m)) ∧
    (∀ (m : String) (lang : Option String), lang ≠ some "en-US" →
      postProcess m lang = jsTrim m) := by
  refine ⟨by decide, ?_, ?_⟩
  · intro m hm
    unfold postProcess
    rw [if_pos ⟨length_pos_of_ne_empty hm, rfl⟩]
  · intro m lang h
    unfold postProcess
    rw [if_neg (fun hc => h hc.2)]

/-- C6 witness: the post-processing clauses evaluated at concrete texts. -/
theorem c6_witness :
    postProcess "go." (some "en-US") = jsTrim (capitalizeFirst "go.") ∧
    postProcess " hi " none = jsTrim " hi " :=
  ⟨c6_confirmed.2.1 "go." (by decide), c6_confirmed.2.2 " hi " none (by decide)⟩

/-! ### Claim C3: persistence failure -/

/-- C3 counterexample: with a valid prompt, a well-formed Gemini payload and
a failing insert, the handler responds 500 Internal Server Error; the
generated text is not returned and the status is not a success status, so a
persistence failure does fail the pipeline. -/
theorem c3_counterexample :
    motivateHandler "POST" (some "I failed my interview") (some "en-US") true true
        (.ok ⟨some [⟨some ⟨some [⟨some "get up and try again."⟩]⟩⟩]⟩) false =
      ⟨500, "Internal Server Error", true, true⟩ ∧
    (500 : Nat) ≠ 200 := by
  refine ⟨by decide, by decide⟩

/-- C3 amended: the insert into the interactions collection is awaited
before the 200 response is sent, so whenever the insert fails the thrown
error reaches the catch block and the handler responds 500 Internal Server
Error instead of returning the generated text. -/
theorem c3_amended (p : String) (lang : Option String) (r : GeminiResult) (m : String)
    (hp : p ≠ "") (hm : extractMessage r = some m) :
    motivateHandler "POST" (some p) lang true true (.ok r) false =
      ⟨500, "Internal Server Error", true, true⟩ := by
  have hb : (p == "") = false := beq_eq_false_iff_ne.mpr hp
  simp [motivateHandler, jsFalsy, hb, hm]

/-- C3 witness: the amended statement evaluated at the concrete scenario
request. -/
theorem c3_witness :
    motivateHandler "POST" (some "I failed my interview") (some "en-US") true true
        (.ok ⟨some [⟨some ⟨some [⟨some "get up and try again."⟩]⟩⟩]⟩) false =
      ⟨500, "Internal Server Error", true, true⟩ :=
  c3_amended "I failed my interview" (some "en-US")
    ⟨some [⟨some ⟨some [⟨some "get up and try again."⟩]⟩⟩]⟩ "get up and try again."
    (by decide) (by decide)

/-! ### Claim C4: malformed or empty Gemini payloads -/

/-- The structural absence cases that the extraction guard of
pages/api/motivate.ts lines 117-119 actually checks: candidates absent or
empty, content absent, or parts absent or empty. -/
def structurallyMissing (r : GeminiResult) : Prop :=
  r.candidates = none ∨ r.candidates = some [] ∨
  (∃ c cs, r.candidates = some (c :: cs) ∧
    (c.content = none ∨
      ∃ ct, c.content = some ct ∧ (ct.parts = none ∨ ct.parts = some [])))

/-- In every structural absence case the extraction yields the fallback
apology string. -/
theorem extractMessage_of_structurallyMissing {r : GeminiResult}
    (h : structurallyMissing r) : extractMessage r = some fallbackMessage := by
  rcases h with h | h | ⟨c, cs, hc, h | ⟨ct, hct, h | h⟩⟩
  · simp [extractMessage, h]
  · simp [extractMessage, h]
  · simp [extractMessage, hc, h]
  · simp [extractMessage, hc, hct, h]
  · simp [extractMessage, hc, hct, h]

/-- C4 counterexample: a payload whose first part carries an empty text is
returned as the empty string with status 200 (not the fallback), and a
payload whose first part lacks the text field makes the handler throw on
the undefined message, producing a 500 fault instead of the fallback. -/
theorem c4_counterexample :
    motivateHandler "POST" (some "help") (some "en-US") true true
        (.ok ⟨some [⟨some ⟨some [⟨some ""⟩]⟩⟩]⟩) true = ⟨200, "", true, true⟩ ∧
    "" ≠ fallbackMessage ∧
    motivateHandler "POST" (some "help") (some "en-US") true true
        (.ok ⟨some [⟨some ⟨some [⟨none⟩]⟩⟩]⟩) true =
      ⟨500, "Internal Server Error", true, false⟩ := by
  refine ⟨by decide, by decide, by decide⟩

/-- C4 amended: when the candidates list is absent or empty, the first
candidate lacks content, or the parts list is absent or empty, the pipeline
returns the fixed fallback apology (which is not the empty string) with
status 200; but a first part whose text is present and empty is returned as
the empty string, and a first part lacking the text field produces a 500
fault. -/
theorem c4_amended :
    (∀ (r : GeminiResult) (p : String) (lang : Option String),
      structurallyMissing r → p ≠ "" →
      motivateHandler "POST" (some p) lang true true (.ok r) true =
        ⟨200, fallbackMessage, true, true⟩) ∧
    fallbackMessage ≠ "" ∧
    (∀ (r : GeminiResult) (c : GeminiCandidate) (cs : List GeminiCandidate)
       (ct : GeminiContent) (q : GeminiPart) (ps : List GeminiPart)
       (p : String) (lang : Option String),
      r.candidates = some (c :: cs) → c.content = some ct →
      ct.parts = some (q :: ps) → q.text = none → p ≠ "" →
      motivateHandler "POST" (some p) lang true true (.ok r) true =
        ⟨500, "Internal Server Error", true, false⟩) := by
  refine ⟨?_, by decide, ?_⟩
  · intro r p lang hr hp
    have hb : (p == "") = false := beq_eq_false_iff_ne.mpr hp
    simp [motivateHandler, jsFalsy, hb, extractMessage_of_structurallyMissing hr,
      postProcess_fallback]
  · intro r c cs ct q ps p lang h1 h2 h3 h4 hp
    have hb : (p == "") = false := beq_eq_false_iff_ne.mpr hp
    have hx : extractMessage r = none := by simp [extractMessage, h1, h2, h3, h4]
    simp [motivateHandler, jsFalsy, hb, hx]

/-- C4 witness: the amended statement evaluated at a payload with no
candidates field and at a payload whose first part lacks the text field. -/
theorem c4_witness :
    motivateHandler "POST" (some "help") none true true (.ok ⟨none⟩) true =
      ⟨200, fallbackMessage, true, true⟩ ∧
    motivateHandler "POST" (some "help") none true true
        (.ok ⟨some [⟨some ⟨some [⟨none⟩]⟩⟩]⟩) true =
      ⟨500, "Internal Server Error", true, false⟩ :=
  ⟨c4_amended.1 ⟨none⟩ "help" none (Or.inl rfl) (by decide),
   c4_amended.2.2 ⟨some [⟨some ⟨some [⟨none⟩]⟩⟩]⟩ ⟨some ⟨some [⟨none⟩]⟩⟩ []
     ⟨some [⟨none⟩]⟩ ⟨none⟩ [] "help" none rfl rfl rfl rfl (by decide)⟩

/-! ### Claim C8: first-name derivation -/

/-- Line 57 of pages/api/motivate.ts: the first name is the first fragment
of splitting userName on the space character, taken only when userName is
present, non-empty (truthy) and not the placeholder Guest. -/
def userFirstName (userName : Option String) : String :=
  match userName with
  | some u => if u ≠ "" ∧ u ≠ "Guest" then jsSplitFirst u else ""
  | none => ""

/-- Line 58 of pages/api/motivate.ts: the greeting is the first name
followed by a comma and a space when the first name is non-empty. -/
def greetingPhrase (userName : Option String) : String :=
  if userFirstName userName ≠ "" then userFirstName userName ++ ", " else ""

/-- Splitting on the space character never yields an empty fragment list. -/
theorem splitSpace_ne_nil (l : List Char) : splitSpace l ≠ [] := by
  induction l with
  | nil => simp [splitSpace]
  | cons c rest ih =>
    unfold splitSpace
    by_cases h : c = ' '
    · simp [h]
    · rw [if_neg h]
      cases hr : splitSpace rest with
      | nil => simp
      | cons a t => simp

/-- The first fragment of splitting on the space character is the longest
space-free initial run. -/
theorem splitSpace_headD (l : List Char) :
    (splitSpace l).headD [] = l.takeWhile (fun c => c != ' ') := by
  induction l with
  | nil => rfl
  | cons c rest ih =>
    unfold splitSpace
    by_cases h : c = ' '
    · subst h
      simp [List.takeWhile_cons]
    · rw [if_neg h]
      cases hr : splitSpace rest with
      | nil => exact absurd hr (splitSpace_ne_nil rest)
      | cons a t =>
        rw [hr] at ih
        have hbne : (c != ' ') = true := by simpa using h
        simp [List.takeWhile_cons, hbne]
        simpa using ih

/-- C8 counterexample: for the userName John-tab-Doe the code keeps the
whole string as the first name (it splits only on the space character),
whereas splitting on whitespace and taking the first token yields John, so
the derivation is not splitting on whitespace. -/
theorem c8_counterexample :
    userFirstName (some "John\tDoe") = "John\tDoe" ∧
    firstWhitespaceToken "John\tDoe" = "John" ∧
    userFirstName (some "John\tDoe") ≠ firstWhitespaceToken "John\tDoe" := by
  refine ⟨by decide, by decide, by decide⟩

/-- C8 amended: for a present userName that is neither empty nor the
placeholder Guest, the first name is the longest initial run of characters
different from the space character (so other whitespace is kept, and a
leading space yields the empty first name); an absent, empty or placeholder
userName yields the empty first name and hence the unpersonalized empty
greeting. -/
theorem c8_amended :
    (∀ u : String, u ≠ "" → u ≠ "Guest" →
      userFirstName (some u) = String.mk (u.data.takeWhile (fun c => c != ' '))) ∧
    userFirstName none = "" ∧
    userFirstName (some "") = "" ∧
    userFirstName (some "Guest") = "" ∧
    greetingPhrase (some "John Smith") = "John, " ∧
    greetingPhrase none = "" ∧
    greetingPhrase (some "Guest") = "" := by
  refine ⟨?_, by decide, by decide, by decide, by decide, by decide, by decide⟩
  intro u h1 h2
  simp only [userFirstName]
  rw [if_pos ⟨h1, h2⟩]
  unfold jsSplitFirst
  rw [splitSpace_headD]

/-- C8 witness: the amended statement evaluated at the userName John Smith. -/
theorem c8_witness :
    userFirstName (some "John Smith") =
      String.mk ("John Smith".data.takeWhile (fun c => c != ' ')) :=
  c8_amended.1 "John Smith" (by decide) (by decide)

/-! ### Claim C5: voice resolution in speakText (pages/index.tsx) -/

/-- The fields of a SpeechSynthesisVoice used by the page. -/
structure Voice where
  voiceURI : String
  lang : String
  name : String
deriving DecidableEq

/-- Lines 123-130 of pages/index.tsx: the utterance voice is the voice found
by the selected URI if any (with no check of its language); otherwise the
first voice whose language equals the selected language; otherwise
voices[0], which is undefined (none) when the enumeration is empty. -/
def resolveVoice (voices : List Voice) (selectedVoiceURI selectedLanguage : String) :
    Option Voice :=
  match voices.find? (fun v => v.voiceURI == selectedVoiceURI) with
  | some v => some v
  | none =>
    match voices.find? (fun v => v.lang == selectedLanguage) with
    | some v => some v
    | none => voices.head?

/-- C5 counterexample: with an enumeration holding a Marathi voice uri-a and
an English voice uri-b, selected URI uri-a and requested language en-US, the
code uses the selected Marathi voice even though its language does not match
and a matching voice exists, contradicting the claimed policy. -/
theorem c5_counterexample :
    resolveVoice [⟨"uri-a", "mr-IN", "A"⟩, ⟨"uri-b", "en-US", "B"⟩] "uri-a" "en-US" =
      some ⟨"uri-a", "mr-IN", "A"⟩ ∧
    (⟨"uri-a", "mr-IN", "A"⟩ : Voice).lang ≠ "en-US" ∧
    (⟨"uri-b", "en-US", "B"⟩ : Voice) ∈
      [(⟨"uri-a", "mr-IN", "A"⟩ : Voice), ⟨"uri-b", "en-US", "B"⟩] ∧
    (⟨"uri-b", "en-US", "B"⟩ : Voice).lang = "en-US" := by
  refine ⟨by decide, by decide, by decide, by decide⟩

/-- C5 amended: the explicitly selected voice is used whenever some
enumerated voice carries the selected URI, regardless of its language; only
when no voice carries the selected URI does the code fall back to the first
voice whose language matches the requested language, and otherwise to the
first voice of the enumeration (no voice when the enumeration is empty). -/
theorem c5_amended (voices : List Voice) (sel lang : String) :
    ((∃ v ∈ voices, v.voiceURI = sel) →
      ∃ v ∈ voices, resolveVoice voices sel lang = some v ∧ v.voiceURI = sel) ∧
    ((∀ v ∈ voices, v.voiceURI ≠ sel) → (∃ v ∈ voices, v.lang = lang) →
      ∃ v ∈ voices, resolveVoice voices sel lang = some v ∧ v.lang = lang) ∧
    ((∀ v ∈ voices, v.voiceURI ≠ sel) → (∀ v ∈ voices, v.lang ≠ lang) →
      resolveVoice voices sel lang = voices.head?) := by
  refine ⟨?_, ?_, ?_⟩
  · rintro ⟨v, hv, huri⟩
    have hsome : (voices.find? (fun w => w.voiceURI == sel)).isSome := by
      rw [List.find?_isSome]
      exact ⟨v, hv, by simpa using huri⟩
    obtain ⟨w, hw⟩ := Option.isSome_iff_exists.mp hsome
    refine ⟨w, List.mem_of_find?_eq_some hw, ?_, ?_⟩
    · simp [resolveVoice, hw]
    · simpa using List.find?_some hw
  · intro hall ⟨v, hv, hlang⟩
    have hnone : voices.find? (fun w => w.voiceURI == sel) = none :=
      List.find?_eq_none.mpr (fun w hw => by simpa using hall w hw)
    have hsome : (voices.find? (fun w => w.lang == lang)).isSome := by
      rw [List.find?_isSome]
      exact ⟨v, hv, by simpa using hlang⟩
    obtain ⟨w, hw⟩ := Option.isSome_iff_exists.mp hsome
    refine ⟨w, List.mem_of_find?_eq_some hw, ?_, ?_⟩
    · simp [resolveVoice, hnone, hw]
    · simpa using List.find?_some hw
  · intro hall1 hall2
    have hnone1 : voices.find? (fun w => w.voiceURI == sel) = none :=
      List.find?_eq_none.mpr (fun w hw => by simpa using hall1 w hw)
    have hnone2 : voices.find? (fun w => w.lang == lang) = none :=
      List.find?_eq_none.mpr (fun w hw => by simpa using hall2 w hw)
    simp [resolveVoice, hnone1, hnone2]

/-- C5 witness: the amended statement evaluated at a one-voice enumeration
whose voice carries the selected URI. -/
theorem c5_witness :
    ∃ v ∈ ([⟨"uri-a", "en-US", "A"⟩] : List Voice),
      resolveVoice [⟨"uri-a", "en-US", "A"⟩] "uri-a" "en-US" = some v ∧
      v.voiceURI = "uri-a" :=
  (c5_amended [⟨"uri-a", "en-US", "A"⟩] "uri-a" "en-US").1
    ⟨⟨"uri-a", "en-US", "A"⟩, by decide, rfl⟩

/-! ### Claim C7: usage counter refresh -/

/-- The displayed counters of pages/index.tsx: totalUsers and totalQueries,
each null (none) until known. -/
structure StatsCounters where
  totalUsers : Option Nat
  totalQueries : Option Nat
deriving DecidableEq

/-- Outcome of one stats fetch: parsed counters from an ok response, a
non-ok HTTP response, or a rejected fetch. -/
inductive StatsOutcome where
  | ok (users queries : Nat)
  | httpError
  | networkFailure
deriving DecidableEq

/-- Lines 181-187 of pages/index.tsx, the refresh after a successful query:
the counters are set only when statsResponse.ok holds; a non-ok response
skips the update, and a rejected fetch reaches the outer catch, which does
not touch the counters. -/
def statsRefreshAfterQuery (s : StatsCounters) (o : StatsOutcome) : StatsCounters :=
  match o with
  | .ok u q => ⟨some u, some q⟩
  | .httpError => s
  | .networkFailure => s

/-- Lines 291-306 of pages/index.tsx, the fetchStats effect: a non-ok
response is turned into a thrown error, and the catch block sets both
counters to null, as a rejected fetch also does. -/
def fetchStatsEffect (_s : StatsCounters) (o : StatsOutcome) : StatsCounters :=
  match o with
  | .ok u q => ⟨some u, some q⟩
  | .httpError => ⟨none, none⟩
  | .networkFailure => ⟨none, none⟩

/-- C7 counterexample: when the fetchStats effect fails with counters 5 and
7 displayed, both counters are reset to the unknown value null instead of
being left unchanged. -/
theorem c7_counterexample :
    fetchStatsEffect ⟨some 5, some 7⟩ .httpError = ⟨none, none⟩ ∧
    fetchStatsEffect ⟨some 5, some 7⟩ .httpError ≠ ⟨some 5, some 7⟩ := by
  refine ⟨rfl, by decide⟩

/-- C7 amended: the post-query refresh leaves the displayed counters
unchanged whenever it fails, but the mount-time fetchStats effect resets
both counters to the unknown value null whenever it fails. -/
theorem c7_amended (s : StatsCounters) (o : StatsOutcome)
    (h : o = .httpError ∨ o = .networkFailure) :
    statsRefreshAfterQuery s o = s ∧ fetchStatsEffect s o = ⟨none, none⟩ := by
  rcases h with h | h <;> subst h <;> exact ⟨rfl, rfl⟩

/-- C7 witness: the amended statement evaluated at counters 3 and 4 and a
rejected fetch. -/
theorem c7_witness :
    statsRefreshAfterQuery ⟨some 3, some 4⟩ .networkFailure = ⟨some 3, some 4⟩ ∧
    fetchStatsEffect ⟨some 3, some 4⟩ .networkFailure = ⟨none, none⟩ :=
  c7_amended ⟨some 3, some 4⟩ .networkFailure (Or.inr rfl)

/-! ### Claim C2: the typing reveal animation (pages/index.tsx lines 317-341)

The effect clears any previous timer, resets the displayed text to empty and
sets a local cursor i to 0, then runs typeText once immediately and then
once per 50 ms timer tick.  Each run checks i < fullText.length, enqueues
the functional state update prev => prev + fullText.charAt(i) and then
increments i.  React executes the enqueued updater only when it flushes the
update, after the synchronous increment has already run, so the appended
character is charAt of the incremented cursor; charAt out of range yields
the empty string.  (The page compensates for the resulting loss of the first
character by doubling it in the initial greeting string HHello.) -/

/-- The reveal state: the displayed characters and the cursor i. -/
structure TypingState where
  displayed : List Char
  i : Nat
deriving DecidableEq

/-- One run of typeText, with the updater reading the cursor after the
increment. -/
def typeTick (t : List Char) (s : TypingState) : TypingState :=
  if s.i < t.length then ⟨s.displayed ++ (t.drop (s.i + 1)).take 1, s.i + 1⟩ else s

/-- The reveal state after k runs of typeText from the reset state. -/
def revealAfter (t : List Char) (k : Nat) : TypingState :=
  (typeTick t)^[k] ⟨[], 0⟩

/-- Taking one more element extends a take by the next one-element chunk. -/
theorem take_succ_chunk {α : Type} (l : List α) :
    ∀ k, l.take (k + 1) = l.take k ++ (l.drop k).take 1 := by
  induction l with
  | nil => intro k; simp
  | cons a as ih =>
    intro k
    cases k with
    | zero => simp
    | succ k =>
      rw [List.take_succ_cons, List.take_succ_cons, List.drop_succ_cons, ih k,
        List.cons_append]

/-- Closed form of the reveal: after k ticks the displayed text is the first
k characters of fullText with its first character removed, and the cursor is
min k (length of fullText). -/
theorem revealAfter_eq (t : List Char) (k : Nat) :
    revealAfter t k = ⟨(t.drop 1).take k, min k t.length⟩ := by
  induction k with
  | zero => simp [revealAfter]
  | succ k ih =>
    rw [revealAfter, Function.iterate_succ_apply']
    have ih2 : (typeTick t)^[k] ⟨[], 0⟩ = ⟨(t.drop 1).take k, min k t.length⟩ := ih
    rw [ih2]
    unfold typeTick
    rcases Nat.lt_or_ge k t.length with hk | hk
    · have hmin : min k t.length = k := Nat.min_eq_left (Nat.le_of_lt hk)
      rw [hmin, if_pos hk]
      have hdrop : t.drop (k + 1) = (t.drop 1).drop k := by
        rw [List.drop_drop, Nat.add_comm]
      have hmin2 : min (k + 1) t.length = k + 1 := Nat.min_eq_left hk
      rw [hdrop, hmin2, ← take_succ_chunk]
    · have hmin : min k t.length = t.length := Nat.min_eq_right hk
      rw [hmin, if_neg (lt_irrefl _)]
      have hmin2 : min (k + 1) t.length = t.length := Nat.min_eq_right (Nat.le_succ_of_le hk)
      have hlen : (t.drop 1).length ≤ k := by
        rw [List.length_drop]
        omega
      rw [hmin2, List.take_of_length_le hlen, List.take_of_length_le (Nat.le_succ_of_le hlen)]

/-- C2 counterexample: for the fullText ab, after all ticks the displayed
text is b and stays b (the post-reveal state is a fixed point of the tick),
so the fully displayed text never equals the fullText: the first character
is lost because the enqueued updater reads the cursor after the increment. -/
theorem c2_counterexample :
    revealAfter ['a', 'b'] 2 = ⟨['b'], 2⟩ ∧
    typeTick ['a', 'b'] ⟨['b'], 2⟩ = ⟨['b'], 2⟩ ∧
    (['b'] : List Char) ≠ ['a', 'b'] := by
  refine ⟨by decide, by decide, by decide⟩

/-- C2 amended: the reveal starts from the empty displayed text whenever a
new fullText arrives, its displayed length is non-decreasing tick by tick,
each tick displays the first k characters of fullText with its first
character removed, and after length-of-fullText ticks it stabilizes at the
fullText minus its first character, never reaching the full string for a
fullText of two or more characters. -/
theorem c2_amended (t : List Char) (k : Nat) :
    revealAfter t 0 = ⟨[], 0⟩ ∧
    (revealAfter t k).displayed.length ≤ (revealAfter t (k + 1)).displayed.length ∧
    (revealAfter t k).displayed = (t.drop 1).take k ∧
    (t.length ≤ k → (revealAfter t k).displayed = t.drop 1) := by
  refine ⟨rfl, ?_, ?_, ?_⟩
  · rw [revealAfter_eq, revealAfter_eq]
    simp only [List.length_take]
    exact min_le_min (Nat.le_succ k) (le_refl _)
  · rw [revealAfter_eq]
  · intro h
    rw [revealAfter_eq]
    refine List.take_of_length_le ?_
    rw [List.length_drop]
    omega

/-- C2 witness: the amended statement evaluated at the fullText abc and
tick count 3. -/
theorem c2_witness :
    (revealAfter ['a', 'b', 'c'] 3).displayed = List.drop 1 ['a', 'b', 'c'] :=
  (c2_amended ['a', 'b', 'c'] 3).2.2.2 (by decide)

/-! ### Claim C1: mutual exclusion of Listening and Speaking

The orchestrator of pages/index.tsx is modelled as an event-step system
over its React flags.  Each event is one synchronously executed handler of
the page: the initialization effect, a click of the microphone button
(enabled only while isLoading is false), the recognition onresult, onend
and onerror callbacks, the resumption of getAiMotivationalResponse when the
generation fetch settles, the utterance onstart and onend/onerror
callbacks, and a click of the stop button (enabled only while isSpeaking
holds and isLoading does not).  The pendingUtterance flag models an
utterance that has been handed to the synthesizer by speakText and whose
start event has not fired and has not been cancelled; cancel clears it. -/

/-- The React state flags of pages/index.tsx relevant to the claim, plus
the initialization flags of the two speech facilities and the pending
utterance of the synthesizer. -/
structure AgentState where
  listening : Bool
  isSpeaking : Bool
  isLoading : Bool
  pendingUtterance : Bool
  recognitionInit : Bool
  synthInit : Bool
deriving DecidableEq, Fintype

/-- The events of the page, one per synchronously executed handler. -/
inductive AgentEvent where
  | initSpeechFull
  | initSpeechNoRecognition
  | micClick
  | micClickStartFails
  | recognitionResult
  | recognitionEnd
  | recognitionError
  | responseArrives
  | responseFails
  | synthStart
  | synthEnd
  | stopClick
deriving DecidableEq, Fintype

/-- Lines 109-149 of pages/index.tsx, speakText: return early when the
synthesizer handle is absent; otherwise cancel any current speech and queue
the new utterance.  The isSpeaking flag is changed only by the utterance
events, not here. -/
def speakTextEff (s : AgentState) : AgentState :=
  if s.synthInit then { s with pendingUtterance := true } else s

/-- One event of the page, translated handler by handler from
pages/index.tsx: micClick is toggleListening (lines 344-377) behind the
disabled={isLoading} button, with the start branch cancelling synthesis and
clearing isSpeaking before setting listening; micClickStartFails is the
same handler when recognition.start() throws; recognitionResult is onresult
(lines 253-259), whose call of getAiMotivationalResponse synchronously sets
isLoading; recognitionEnd and recognitionError are onend and onerror (lines
262-273); responseArrives and responseFails are the resumptions of
getAiMotivationalResponse after the fetch settles (lines 170-201), both of
which speak a text and finally clear isLoading; synthStart and synthEnd are
the utterance onstart and onend/onerror callbacks (lines 135-146);
stopClick is stopSpeaking (lines 380-386) behind the stop button enabled
only while isSpeaking holds and isLoading does not. -/
def agentStep (s : AgentState) (e : AgentEvent) : AgentState :=
  match e with
  | .initSpeechFull => { s with synthInit := true, recognitionInit := true }
  | .initSpeechNoRecognition => { s with synthInit := true }
  | .micClick =>
    if s.isLoading then s
    else if s.recognitionInit = false then speakTextEff s
    else if s.listening then { s with isSpeaking := false }
    else { s with isSpeaking := false, pendingUtterance := false, listening := true }
  | .micClickStartFails =>
    if s.isLoading then s
    else if s.recognitionInit = false then speakTextEff s
    else if s.listening then { s with isSpeaking := false }
    else speakTextEff
      { s with isSpeaking := false, pendingUtterance := false, listening := false }
  | .recognitionResult => if s.listening then { s with isLoading := true } else s
  | .recognitionEnd => { s with listening := false }
  | .recognitionError =>
    if s.recognitionInit then speakTextEff { s with listening := false } else s
  | .responseArrives => if s.isLoading then { speakTextEff s with isLoading := false } else s
  | .responseFails => if s.isLoading then { speakTextEff s with isLoading := false } else s
  | .synthStart =>
    if s.pendingUtterance then { s with isSpeaking := true, pendingUtterance := false } else s
  | .synthEnd => { s with isSpeaking := false }
  | .stopClick =>
    if s.isSpeaking ∧ s.isLoading = false then
      { s with isSpeaking := false, pendingUtterance := false }
    else s

/-- The state of the freshly mounted page: every flag false. -/
def initAgent : AgentState := ⟨false, false, false, false, false, false⟩

/-- The inductive invariant: while listening, recognition is initialized,
no speech is audible and no utterance is pending; and recognition is only
initialized together with the synthesizer. -/
def agentInv (s : AgentState) : Bool :=
  (!s.listening || (s.recognitionInit && !s.isSpeaking && !s.pendingUtterance)) &&
  (!s.recognitionInit || s.synthInit)

/-- The scheduling restriction of the amended claim: the generation fetch
settles only while listening is false.  The code itself does not enforce
this; it holds in a browser because the recognition end event is delivered
promptly after the final result while the fetch needs a network round
trip. -/
def respGuard (s : AgentState) (e : AgentEvent) : Bool :=
  match e with
  | .responseArrives => !s.listening
  | .responseFails => !s.listening
  | _ => true

/-- States reachable from the mounted page by event sequences satisfying
the scheduling restriction. -/
inductive ReachableUnder : AgentState → Prop where
  | init : ReachableUnder initAgent
  | next {s : AgentState} (e : AgentEvent) : ReachableUnder s → respGuard s e = true →
      ReachableUnder (agentStep s e)

/-- Every event preserves the inductive invariant under the scheduling
restriction. -/
theorem agentInv_step : ∀ (s : AgentState) (e : AgentEvent),
    agentInv s = true → respGuard s e = true → agentInv (agentStep s e) = true := by
  decide

/-- The inductive invariant holds in every state reachable under the
scheduling restriction. -/
theorem agentInv_of_reachable {s : AgentState} (h : ReachableUnder s) :
    agentInv s = true := by
  induction h with
  | init => decide
  | next e _ hg ih => exact agentInv_step _ e ih hg

/-- An event trace violating the claim as stated: capture is started, the
recognition result arrives, and the generation fetch settles (the code has
no guard against this) before the recognition end event is delivered, so
the queued utterance starts while listening is still true. -/
def badTrace : List AgentEvent :=
  [.initSpeechFull, .micClick, .recognitionResult, .responseArrives, .synthStart]

/-- C1 counterexample: running the violating trace from the mounted page
reaches a state in which listening and isSpeaking are both true, so the
mutual exclusion does not hold for every reachable state sequence. -/
theorem c1_counterexample :
    (badTrace.foldl agentStep initAgent).listening = true ∧
    (badTrace.foldl agentStep initAgent).isSpeaking = true := by
  refine ⟨by decide, by decide⟩

/-- C1 amended: starting capture cancels any pending synthesis and clears
the speaking flag in the same step that sets listening; and in every state
reachable by event sequences in which the generation fetch settles only
while listening is false, at most one of the listening and speaking flags
is true. -/
theorem c1_amended :
    (∀ s : AgentState, ReachableUnder s → ¬(s.listening = true ∧ s.isSpeaking = true)) ∧
    (∀ s : AgentState, s.isLoading = false → s.recognitionInit = true →
      s.listening = false →
      agentStep s .micClick =
        { s with isSpeaking := false, pendingUtterance := false, listening := true }) := by
  constructor
  · intro s hs hcontra
    have hinv := agentInv_of_reachable hs
    obtain ⟨h1, h2⟩ := hcontra
    simp [agentInv, h1, h2] at hinv
  · intro s h1 h2 h3
    simp [agentStep, h1, h2, h3]

/-- C1 witness: the amended statement evaluated at the mounted page and at
a concrete idle-but-speaking state. -/
theorem c1_witness :
    ¬(initAgent.listening = true ∧ initAgent.isSpeaking = true) ∧
    agentStep ⟨false, true, false, true, true, true⟩ .micClick =
      { (⟨false, true, false, true, true, true⟩ : AgentState) with
        isSpeaking := false, pendingUtterance := false, listening := true } :=
  ⟨c1_amended.1 initAgent ReachableUnder.init,
   c1_amended.2 ⟨false, true, false, true, true, true⟩ rfl rfl rfl⟩

end MotivAI
